import Mathlib

/-
  Verification development for the UntBot repository (a Telegram exam-practice
  bot).  The subsystems under specification are embedded shallowly:

  * src/database.py  — users table, append-only answers ledger, streak engine,
    aggregate statistics, leaderboard ranking (SQLite calls become pure
    functions over an explicit store state);
  * src/questions.py — question loading cache and random topic-filtered
    selection (randomness becomes an explicit pick index, file contents become
    an explicit Option-valued data argument);
  * src/bot.py       — the check_answer flow that ties streak update, answer
    recording and aggregate reads together;
  * src/admin_tools/validate_questions.py — the offline per-question validator.

  Machine conventions: Python ints become Nat where the source only ever
  stores non-negative counts; the float percentages of the source are
  computed exactly, as natural numbers of tenths of a percent, with explicit
  rounding functions mirroring round(x, 1) (half-to-even, as Python's round)
  and SQLite's ROUND (half away from zero), each tied to a reference rational
  rounding by a bridge lemma; Python exceptions become Except; SQLite rows
  become structures.
-/

deriving instance DecidableEq for Except

namespace UntBot

/-! ### Calendar dates

Python's datetime.date is a (year, month, day) triple with validity enforced
by the constructor.  update_streak only ever compares dates for equality with
today and with today - timedelta(days=1), so the embedding needs equality and
a predecessor-day function. -/

structure Date where
  year : Nat
  month : Nat
  day : Nat
deriving DecidableEq, Repr

/-- Gregorian leap-year rule, as used by Python's datetime module. -/
def isLeap (y : Nat) : Bool :=
  (y % 4 == 0 && y % 100 != 0) || y % 400 == 0

/-- Days in a month of a given year (Gregorian calendar). -/
def daysInMonth (y m : Nat) : Nat :=
  if m = 2 then (if isLeap y then 29 else 28)
  else if m = 4 ∨ m = 6 ∨ m = 9 ∨ m = 11 then 30
  else 31

/-- A Date value that datetime.date would accept: year 1..9999, month 1..12,
day within the month. -/
def Date.valid (d : Date) : Bool :=
  1 ≤ d.year && d.year ≤ 9999 &&
  1 ≤ d.month && d.month ≤ 12 &&
  1 ≤ d.day && d.day ≤ daysInMonth d.year d.month

/-- The previous calendar day: the embedding of today - timedelta(days=1). -/
def Date.pred (d : Date) : Date :=
  if d.day > 1 then ⟨d.year, d.month, d.day - 1⟩
  else if d.month > 1 then ⟨d.year, d.month - 1, daysInMonth d.year (d.month - 1)⟩
  else ⟨d.year - 1, 12, 31⟩

/-- Left-pad a numeral with zeros, as strftime's %Y / %m / %d do. -/
def padNum (width n : Nat) : String :=
  let s := Nat.repr n
  String.mk (List.replicate (width - s.length) '0') ++ s

/-- strftime('%Y-%m-%d'): the format update_streak writes back into the
last_practice_date column. -/
def formatDate (d : Date) : String :=
  padNum 4 d.year ++ "-" ++ padNum 2 d.month ++ "-" ++ padNum 2 d.day

/-- Split a character list at each dash, the scanning skeleton of
strptime's '%Y-%m-%d' format (the accumulator carries the current group in
reverse). -/
def splitDash : List Char → List Char → List (List Char)
  | [], acc => [acc.reverse]
  | c :: cs, acc =>
    if c = '-' then acc.reverse :: splitDash cs [] else splitDash cs (c :: acc)

/-- The numeric value of a digit group. -/
def digitsToNat (l : List Char) : Nat :=
  l.foldl (fun acc c => acc * 10 + (c.toNat - 48)) 0

def allDigits (l : List Char) : Bool := l.all Char.isDigit

/-- CPython strptime's %Y group: exactly four digits (its regex is
\d\d\d\d, so one- to three-digit years do not match). -/
def yearGroup? (l : List Char) : Option Nat :=
  if allDigits l ∧ l.length = 4 then some (digitsToNat l) else none

/-- CPython strptime's %m group, regex 1[0-2]|0[1-9]|[1-9]: one or two
digits whose value is 1..12 (no space-padded form for months). -/
def monthGroup? (l : List Char) : Option Nat :=
  if allDigits l ∧ (l.length = 1 ∨ l.length = 2) ∧
     1 ≤ digitsToNat l ∧ digitsToNat l ≤ 12 then some (digitsToNat l) else none

/-- CPython strptime's %d group, regex 3[01]|[12]\d|0[1-9]|[1-9]| [1-9]:
one or two digits whose value is 1..31, or a space followed by a non-zero
digit (the space-padded day form). -/
def dayGroup? : List Char → Option Nat
  | [' ', c] => if c.isDigit ∧ c ≠ '0' then some (c.toNat - 48) else none
  | l =>
    if allDigits l ∧ (l.length = 1 ∨ l.length = 2) ∧
       1 ≤ digitsToNat l ∧ digitsToNat l ≤ 31 then some (digitsToNat l)
    else none

/-- datetime.strptime(s, '%Y-%m-%d').date(): the format's two literal dashes
must both appear (no group pattern can contain a dash, and strptime rejects
unconverted trailing data, so a full match splits the string at its dashes
into exactly three segments, each exhausted by its group's regex); the
matched year, month and day must then form a calendar date that the
datetime.date constructor accepts.  Any failure raises ValueError, modelled
as none. -/
def parseDate (s : String) : Option Date :=
  match splitDash s.data [] with
  | [ys, ms, ds] =>
    match yearGroup? ys, monthGroup? ms, dayGroup? ds with
    | some y, some m, some d =>
      if (Date.mk y m d).valid then some ⟨y, m, d⟩ else none
    | _, _, _ => none
  | _ => none

/-! ### Persistent store

Rows of the users table that the specified subsystem touches, and the
append-only answers ledger.  Columns not read by any specified operation
(username, created_at, last_active, language, subject on the user row, and
answered_at on the answer row) are elided. -/

structure UserRow where
  firstName : String
  currentStreak : Nat
  bestStreak : Nat
  lastPracticeDate : Option String
deriving DecidableEq, Repr

structure AnswerEvent where
  telegramId : Nat
  subject : String
  questionId : Nat
  userAnswer : String
  correctAnswer : String
  isCorrect : Bool
deriving DecidableEq, Repr

structure DB where
  users : List (Nat × UserRow)
  answers : List AnswerEvent
deriving DecidableEq, Repr

/-- SELECT ... FROM users WHERE telegram_id = uid (telegram_id is the primary
key, so at most one row). -/
def DB.findUser (db : DB) (uid : Nat) : Option UserRow :=
  (db.users.find? (fun p => p.1 == uid)).map (fun p => p.2)

/-- UPDATE users SET ... WHERE telegram_id = uid. -/
def DB.setUser (db : DB) (uid : Nat) (r : UserRow) : DB :=
  { db with users := db.users.map (fun p => if p.1 == uid then (p.1, r) else p) }

/-! ### Streak engine: database.update_streak -/

/-- The streak transition of update_streak, read off the Python if/elif
chain.  current_streak is the stored column value (0 when the user never
practiced); Python's truthiness tests on it become comparisons with 0. -/
def newStreakOf (today : Date) (lastDate : Option Date) (currentStreak : Nat) : Nat :=
  match lastDate with
  | none => 1
  | some ld =>
    if ld = today then (if currentStreak != 0 then currentStreak else 1)
    else if ld = Date.pred today then (if currentStreak != 0 then currentStreak else 0) + 1
    else 1

/-- The last-date block of update_streak: a NULL or empty stored string means
no previous practice (Python's `if last_date_str:`); a non-empty string is
parsed with strptime, whose ValueError is the error case. -/
def parseStoredDate : Option String → Except Unit (Option Date)
  | none => .ok none
  | some s =>
    if s = "" then .ok none
    else match parseDate s with
      | some d => .ok (some d)
      | none => .error ()

/-- database.update_streak(telegram_id).  Returns the updated store and the
returned streak value; raising ValueError on a malformed stored date string is
modelled as Except.error.  A missing user row returns 0 and leaves the store
untouched. -/
def update_streak (today : Date) (db : DB) (uid : Nat) :
    Except Unit (DB × Nat) :=
  match db.findUser uid with
  | none => .ok (db, 0)
  | some row =>
    match parseStoredDate row.lastPracticeDate with
    | .error e => .error e
    | .ok lastDate =>
      let n := newStreakOf today lastDate row.currentStreak
      .ok (db.setUser uid
            { row with currentStreak := n,
                       bestStreak := max row.bestStreak n,
                       lastPracticeDate := some (formatDate today) }, n)

/-- database.get_user_streak(telegram_id): current and best streak, 0s when
the user row is missing (the stored columns are non-null with default 0, so
the row's falsy-to-0 coercions are identities on Nat). -/
def get_user_streak (db : DB) (uid : Nat) : Nat × Nat :=
  match db.findUser uid with
  | some r => (r.currentStreak, r.bestStreak)
  | none => (0, 0)

/-! ### Rounding

database.get_user_stats rounds with Python's round(x, 1), which is
round-half-to-even; database.get_leaderboard / get_user_rank round inside SQL
with ROUND(x, 1), which rounds half away from zero.  The source computes over
floats; the embedding computes the same one-decimal results exactly, and
represents each rounded percentage by the natural number of TENTHS of a
percent (the displayed value is tenths / 10).  Reference definitions over ℚ
are given alongside, with bridge lemmas proving the integer computations
agree with rational rounding of (correct / total) * 100. -/

/-- Round a rational to the nearest integer, ties to the even integer
(Python's round).  Reference definition. -/
def roundHalfEven (x : ℚ) : ℤ :=
  let f : ℤ := ⌊x⌋
  let frac : ℚ := x - f
  if frac < 1/2 then f
  else if 1/2 < frac then f + 1
  else if f % 2 = 0 then f else f + 1

/-- Round a rational to the nearest integer, ties away from zero (SQLite's
ROUND on non-negative arguments; accuracies are non-negative).  Reference
definition. -/
def roundHalfAway (x : ℚ) : ℤ :=
  if 0 ≤ x then ⌊x + 1/2⌋ else ⌈x - 1/2⌉

/-- Python's round((correct / total) * 100, 1) in tenths of a percent:
round-half-to-even of 1000 * correct / total, computed with integer
arithmetic. -/
def pyRoundTenths (correct total : Nat) : Nat :=
  let n := 1000 * correct
  let q := n / total
  let r := n % total
  if 2 * r < total then q
  else if total < 2 * r then q + 1
  else if q % 2 = 0 then q else q + 1

/-- SQLite's ROUND((correct / total) * 100.0, 1) in tenths of a percent:
round-half-away-from-zero of 1000 * correct / total (floor of the value plus
one half, all quantities non-negative). -/
def sqliteRoundTenths (correct total : Nat) : Nat :=
  (2 * (1000 * correct) + total) / (2 * total)

/-! ### Progress ledger aggregates: database.get_user_stats -/

/-- The rows of the answers ledger belonging to one user; the source of the
COUNT/SUM aggregates. -/
def userAnswers (db : DB) (uid : Nat) : List AnswerEvent :=
  db.answers.filter (fun e => e.telegramId == uid)

structure Stats where
  total : Nat
  correct : Nat
  /-- round((correct / total) * 100, 1), in tenths of a percent. -/
  percentageTenths : Nat
deriving DecidableEq, Repr

/-- database.get_user_stats(telegram_id): COUNT(*) and the conditional SUM
over the user's ledger rows; the percentage is computed only on the branch
where the count is positive, otherwise the function returns None. -/
def get_user_stats (db : DB) (uid : Nat) : Option Stats :=
  let evs := userAnswers db uid
  let total := evs.length
  let correct := (evs.filter (fun e => e.isCorrect)).length
  if total > 0 then
    some ⟨total, correct, pyRoundTenths correct total⟩
  else none

/-! ### Progress ledger append: database.save_answer -/

/-- database.save_answer: a plain INSERT into the answers table.  It performs
no validation and cannot fail; the ledger grows by exactly one row. -/
def save_answer (db : DB) (e : AnswerEvent) : DB :=
  { db with answers := db.answers ++ [e] }

/-! ### Leaderboard: database.get_leaderboard and database.get_user_rank

Both functions run the same SQL skeleton: users INNER JOIN answers, grouped
by telegram_id, HAVING total > 0, ORDER BY accuracy DESC, correct DESC.  The
ordering is embedded as one shared stable sort (the two queries are textually
identical up to the selected columns and LIMIT, so SQLite orders them
identically on the same store). -/

structure LBRow where
  telegramId : Nat
  firstName : String
  correct : Nat
  total : Nat
  /-- ROUND(correct / total * 100, 1), in tenths of a percent. -/
  accuracyTenths : Nat
  streak : Nat
deriving DecidableEq, Repr

/-- The grouped join rows: one row per users-table entry that owns at least
one answers-table row (INNER JOIN + GROUP BY + HAVING total > 0). -/
def eligibleRows (db : DB) : List LBRow :=
  db.users.filterMap (fun p =>
    let evs := userAnswers db p.1
    if evs.length > 0 then
      let correct := (evs.filter (fun e => e.isCorrect)).length
      some ⟨p.1, p.2.firstName, correct, evs.length,
            sqliteRoundTenths correct evs.length,
            p.2.currentStreak⟩
    else none)

/-- ORDER BY accuracy DESC, correct DESC: row a sorts strictly before row b. -/
def lbBefore (a b : LBRow) : Bool :=
  b.accuracyTenths < a.accuracyTenths ||
  (a.accuracyTenths == b.accuracyTenths && b.correct < a.correct)

/-- Insert a row into an already ordered list, after any row it does not
strictly precede (so later table rows land after earlier ties). -/
def insertRow (r : LBRow) : List LBRow → List LBRow
  | [] => [r]
  | x :: xs => if lbBefore r x then r :: x :: xs else x :: insertRow r xs

/-- The shared ORDER BY result: a stable insertion sort of the grouped rows. -/
def rankedRows (db : DB) : List LBRow :=
  (eligibleRows db).foldl (fun acc r => insertRow r acc) []

/-- One displayed leaderboard entry (get_leaderboard drops the id and
coalesces a falsy streak to 0, an identity on Nat). -/
structure LBEntry where
  name : String
  correct : Nat
  total : Nat
  accuracyTenths : Nat
  streak : Nat
deriving DecidableEq, Repr

def displayRow (r : LBRow) : LBEntry :=
  ⟨r.firstName, r.correct, r.total, r.accuracyTenths, r.streak⟩

/-- database.get_leaderboard(limit): the first limit ordered rows. -/
def get_leaderboard (db : DB) (limit : Nat) : List LBEntry :=
  ((rankedRows db).take limit).map displayRow

/-- database.get_user_rank(telegram_id): enumerate the full ordered
population from 1 and return the position of the first row with this id;
None when the user appears nowhere. -/
def get_user_rank (db : DB) (uid : Nat) : Option Nat :=
  ((rankedRows db).findIdx? (fun r => r.telegramId == uid)).map (· + 1)

/-! ### Question store: questions.py

A question JSON object is embedded as a structure of optional fields: none
models an absent key, so the dict .get accesses of the source translate to
Option operations, and the two direct subscript accesses of get_question
(question with key id, question with key topic) translate to fallible
matches.  The isinstance checks of the admin validator (id must be int,
options must be a dict) are typed away by the embedding. -/

inductive Lang | en | ru | kk
deriving DecidableEq, Repr

structure Question where
  id : Option Nat
  topic : Option String
  question_en : Option String
  question_ru : Option String
  question_kk : Option String
  options : Option (List (String × String))
  correct : Option String
  explanation_en : Option String
  explanation_ru : Option String
  explanation_kk : Option String
deriving DecidableEq, Repr

/-- question.get('question_LANG'). -/
def Question.qtext (q : Question) : Lang → Option String
  | .en => q.question_en
  | .ru => q.question_ru
  | .kk => q.question_kk

/-- question.get('explanation_LANG'). -/
def Question.etext (q : Question) : Lang → Option String
  | .en => q.explanation_en
  | .ru => q.explanation_ru
  | .kk => q.explanation_kk

/-- A subject's parsed JSON file: the metadata topic keys and the questions
array. -/
structure SubjectData where
  topics : List String
  questions : List Question
deriving DecidableEq, Repr

/-- A subject's source file as the loader sees it: absent (unknown subject or
missing file), malformed (json.load raises, caught), or parsed data. -/
inductive SourceFile
  | missing
  | malformed
  | parsed (d : SubjectData)
deriving DecidableEq, Repr

/-- questions.load_questions_from_file(subject), modelled from the parsed
JSON onward: absence or a parse failure yields None (printed and swallowed);
parsed data is returned exactly as json.load produced it — the loader
performs no per-question validation whatsoever. -/
def load_questions_from_file : SourceFile → Option SubjectData
  | .missing => none
  | .malformed => none
  | .parsed d => some d

/-- The rendered payload get_question returns (dict with keys id, topic,
text, options, correct, explanation). -/
structure ServedQuestion where
  id : Nat
  topic : String
  text : String
  options : List (String × String)
  correct : String
  explanation : String
deriving DecidableEq, Repr

/-- The formatting block at the end of get_question: question with subscript
id and subscript topic raise KeyError when the key is absent (Except.error);
every other access uses .get with a fallback.  The text and explanation for
the requested language fall back to the English variant, then to the empty
string. -/
def renderQuestion (q : Question) (lang : Lang) : Except Unit ServedQuestion :=
  match q.id, q.topic with
  | some i, some tp =>
    .ok ⟨i, tp,
         (q.qtext lang).getD (q.question_en.getD ""),
         q.options.getD [],
         q.correct.getD "A",
         (q.etext lang).getD (q.explanation_en.getD "")⟩
  | _, _ => .error ()

/-- random.choice(l) on a non-empty list, with the randomness supplied as an
explicit pick index. -/
def choice (l : List Question) (pick : Nat) (h : l ≠ []) : Question :=
  l.get ⟨pick % l.length, Nat.mod_lt _ (List.length_pos.mpr h)⟩

/-- questions.get_question(subject, language, topic), taking the cached load
result for the subject as an explicit argument.  Mirrors the source: a falsy
cache entry yields None; an empty questions array yields None; a truthy topic
filters by equality against question.get('topic') and yields None when the
filtered list is empty; otherwise a random element is rendered. -/
def get_question (data? : Option SubjectData) (lang : Lang)
    (topic? : Option String) (pick : Nat) : Except Unit (Option ServedQuestion) :=
  match data? with
  | none => .ok none
  | some data =>
    if h0 : data.questions = [] then .ok none
    else
      match topic? with
      | some t =>
        if t ≠ "" then
          let filtered := data.questions.filter (fun q => q.topic == some t)
          if h1 : filtered = [] then .ok none
          else (renderQuestion (choice filtered pick h1) lang).map some
        else (renderQuestion (choice data.questions pick h0) lang).map some
      | none => (renderQuestion (choice data.questions pick h0) lang).map some

/-! ### Offline validator: admin_tools/validate_questions.validate_question

Embedded check-for-check (message text abbreviated; only emptiness of the
error list matters to the claims).  Python falsiness of a field value maps
to: 0 for the id, the empty string for texts, the empty list for options. -/

def requiredOptionLabels : List String := ["A", "B", "C", "D", "E"]

/-- The required-field presence/non-emptiness checks, one per field, in
source order. -/
def fieldErrors (q : Question) : List String :=
  (match q.id with
    | none => ["missing field id"]
    | some i => if i = 0 then ["empty field id"] else []) ++
  (match q.topic with
    | none => ["missing field topic"]
    | some t => if t = "" then ["empty field topic"] else []) ++
  (match q.question_en with
    | none => ["missing field question en"]
    | some s => if s = "" then ["empty field question en"] else []) ++
  (match q.question_ru with
    | none => ["missing field question ru"]
    | some s => if s = "" then ["empty field question ru"] else []) ++
  (match q.question_kk with
    | none => ["missing field question kk"]
    | some s => if s = "" then ["empty field question kk"] else []) ++
  (match q.options with
    | none => ["missing field options"]
    | some l => if l = [] then ["empty field options"] else []) ++
  (match q.correct with
    | none => ["missing field correct"]
    | some s => if s = "" then ["empty field correct"] else []) ++
  (match q.explanation_en with
    | none => ["missing field explanation en"]
    | some s => if s = "" then ["empty field explanation en"] else []) ++
  (match q.explanation_ru with
    | none => ["missing field explanation ru"]
    | some s => if s = "" then ["empty field explanation ru"] else []) ++
  (match q.explanation_kk with
    | none => ["missing field explanation kk"]
    | some s => if s = "" then ["empty field explanation kk"] else [])

/-- The per-label option checks: each of A..E must be present and non-empty. -/
def optionErrors (q : Question) : List String :=
  match q.options with
  | none => []
  | some opts =>
    requiredOptionLabels.flatMap (fun lbl =>
      match opts.find? (fun p => p.1 == lbl) with
      | none => ["missing option " ++ lbl]
      | some p => if p.2 = "" then ["empty option " ++ lbl] else [])

/-- admin_tools validate_question(question, question_num, subject, topic):
the full error list (field checks, topic-mismatch check, option checks,
correct-label check, identical-translations check, length heuristics). -/
def validate_question (q : Question) (declaredTopic : String) : List String :=
  fieldErrors q ++
  (match q.topic with
    | some t => if t ≠ declaredTopic then ["topic mismatch"] else []
    | none => []) ++
  optionErrors q ++
  (match q.correct with
    | some c => if c ∉ requiredOptionLabels then ["invalid correct answer"] else []
    | none => []) ++
  (match q.question_en, q.question_ru, q.question_kk with
    | some e, some r, some k =>
      if e = r ∧ r = k then ["all language versions identical"] else []
    | _, _, _ => []) ++
  (match q.question_en with
    | some e =>
      (if e.length < 10 then ["question text seems too short"] else []) ++
      (if e.length > 500 then ["question text seems too long"] else [])
    | none => [])

/-! ### Answer-recording flow: bot.check_answer

The flow runs over one user's session and the store.  Transport concerns
(message formatting, keyboards, the AI explanation text itself) are elided;
what is kept is every store read/write and every fallible step, in source
order: update_streak runs first, then the A..E membership test routes
non-label text to handle_free_text (which never writes the store), then a
missing current question short-circuits, then save_answer appends, then the
explanation arguments are built — where question options with subscript
correct raises KeyError when the label is absent — then get_user_stats and
(for a streak above 1) get_user_streak are read.  The returned DB is the
store as committed when the flow ends, also when it ends in an exception
(each SQLite write in the source commits immediately). -/

structure Session where
  subject : Option String
  currentQuestion : Option ServedQuestion
deriving DecidableEq, Repr

inductive Outcome
  | freeText
  | noQuestion
  | answered (stats : Option Stats) (streakInfo : Option (Nat × Nat)) (newStreak : Nat)
deriving DecidableEq, Repr

/-- update.message.text.upper().strip() (ASCII fragment of the Python string
methods, implemented over the character list so that it evaluates in the
kernel). -/
def upperStrip (s : String) : String :=
  let up := s.data.map Char.toUpper
  ⟨((up.dropWhile Char.isWhitespace).reverse.dropWhile Char.isWhitespace).reverse⟩

def check_answer (today : Date) (db : DB) (uid : Nat) (sess : Session)
    (text : String) : DB × Except Unit Outcome :=
  let userAnswer := upperStrip text
  match update_streak today db uid with
  | .error _ => (db, .error ())
  | .ok (db1, newStreak) =>
    if userAnswer ∈ (["A", "B", "C", "D", "E"] : List String) then
      match sess.currentQuestion with
      | none => (db1, .ok .noQuestion)
      | some q =>
        let correctAnswer := q.correct
        let isCorrect := userAnswer == correctAnswer
        let subject := sess.subject.getD "math"
        let db2 := save_answer db1
          ⟨uid, subject, q.id, userAnswer, correctAnswer, isCorrect⟩
        match q.options.find? (fun p => p.1 == correctAnswer) with
        | none => (db2, .error ())
        | some _ =>
          let stats := get_user_stats db2 uid
          let streakInfo :=
            if newStreak > 1 then some (get_user_streak db2 uid) else none
          (db2, .ok (.answered stats streakInfo newStreak))
    else (db1, .ok .freeText)

/-! ### Concrete fixtures

Small concrete stores, sessions and question banks used by the witness and
counterexample theorems below. -/

def dToday : Date := ⟨2024, 5, 10⟩

/-- A user whose last practice was yesterday with a 4-day streak. -/
def rowYesterday : UserRow := ⟨"Aru", 4, 4, some "2024-05-09"⟩

def dbYesterday : DB := ⟨[(7, rowYesterday)], []⟩

/-- dbYesterday after one streak update on dToday. -/
def dbYesterdayUpdated : DB := ⟨[(7, ⟨"Aru", 5, 5, some "2024-05-10"⟩)], []⟩

/-- A user whose stored last-practice string does not parse as %Y-%m-%d. -/
def rowMalformed : UserRow := ⟨"Bek", 5, 5, some "not-a-date"⟩

def dbMalformed : DB := ⟨[(9, rowMalformed)], []⟩

/-- A served question with options A..E and correct label B, sitting in a
session as the current question. -/
def servedQ : ServedQuestion :=
  ⟨3, "algebra", "q", [("A", "1"), ("B", "2"), ("C", "3"), ("D", "4"), ("E", "5")], "B", "why"⟩

def sessQ : Session := ⟨some "math", some servedQ⟩

/-- A user with three recorded answers, two of them correct. -/
def dbThree : DB :=
  ⟨[(7, ⟨"Aru", 0, 0, none⟩)],
   [⟨7, "math", 1, "A", "A", true⟩, ⟨7, "math", 2, "B", "A", false⟩,
    ⟨7, "math", 3, "C", "C", true⟩]⟩

/-- Two users with answers (100% on 1 and 50% on 2) and one with none. -/
def dbRank : DB :=
  ⟨[(1, ⟨"Ana", 0, 0, none⟩), (2, ⟨"Bek", 0, 0, none⟩), (3, ⟨"Cam", 0, 0, none⟩)],
   [⟨1, "math", 1, "A", "A", true⟩, ⟨2, "math", 1, "A", "A", true⟩,
    ⟨2, "math", 2, "A", "B", false⟩]⟩

def fullOptions : List (String × String) :=
  [("A", "1"), ("B", "2"), ("C", "3"), ("D", "4"), ("E", "5")]

def qAlgebra : Question :=
  ⟨some 1, some "algebra", some "what is two plus two", some "ru question",
   some "kk question", some fullOptions, some "A", some "because", some "ru expl",
   some "kk expl"⟩

def qGeometry : Question :=
  { qAlgebra with id := some 2, topic := some "geometry" }

/-- The spec's scenario bank: one algebra and one geometry question. -/
def twoTopicData : SubjectData := ⟨["algebra", "geometry"], [qAlgebra, qGeometry]⟩

/-- A record missing its Russian question text (violates the all-variants
invariant). -/
def qMissingRu : Question := { qAlgebra with question_ru := none }

def badSubject : SubjectData := ⟨["algebra"], [qMissingRu]⟩

/-! ### Rounding bridge theorems -/

/-- Bridge: the integer tenths computation agrees with round-half-to-even of
the exact rational (correct / total) * 100 * 10. -/
theorem pyRoundTenths_eq (c t : Nat) (ht : 0 < t) :
    (pyRoundTenths c t : ℤ) = roundHalfEven ((c : ℚ) / (t : ℚ) * 100 * 10) := by
  have htQ : (0 : ℚ) < (t : ℚ) := by exact_mod_cast ht
  have hx : (c : ℚ) / (t : ℚ) * 100 * 10 = ((1000 * c : ℕ) : ℚ) / (t : ℚ) := by
    push_cast
    ring
  have hfloor : ⌊((1000 * c : ℕ) : ℚ) / ((t : ℕ) : ℚ)⌋ =
      ((1000 * c / t : ℕ) : ℤ) := by
    rw [Rat.floor_natCast_div_natCast]
    exact (Int.ofNat_div _ _).symm
  have hfrac : ((1000 * c : ℕ) : ℚ) / (t : ℚ) -
      (((1000 * c / t : ℕ) : ℤ) : ℚ) =
      ((1000 * c % t : ℕ) : ℚ) / (t : ℚ) := by
    have hsplit : ((t : ℕ) : ℚ) * ((1000 * c / t : ℕ) : ℚ) +
        ((1000 * c % t : ℕ) : ℚ) = ((1000 * c : ℕ) : ℚ) := by
      exact_mod_cast Nat.div_add_mod (1000 * c) t
    rw [Int.cast_natCast]
    push_cast at hsplit ⊢
    rw [← hsplit]
    field_simp
  have hlt : (((1000 * c % t : ℕ) : ℚ) / (t : ℚ) < 1 / 2) ↔
      2 * (1000 * c % t) < t := by
    rw [div_lt_iff htQ]
    constructor
    · intro h
      have h2 : ((2 * (1000 * c % t) : ℕ) : ℚ) < (t : ℚ) := by
        push_cast
        linarith
      exact_mod_cast h2
    · intro h
      have h2 : ((2 * (1000 * c % t) : ℕ) : ℚ) < (t : ℚ) := by exact_mod_cast h
      push_cast at h2
      linarith
  have hgt : (1 / 2 < ((1000 * c % t : ℕ) : ℚ) / (t : ℚ)) ↔
      t < 2 * (1000 * c % t) := by
    rw [lt_div_iff htQ]
    constructor
    · intro h
      have h2 : ((t : ℕ) : ℚ) < ((2 * (1000 * c % t) : ℕ) : ℚ) := by
        push_cast
        linarith
      exact_mod_cast h2
    · intro h
      have h2 : ((t : ℕ) : ℚ) < ((2 * (1000 * c % t) : ℕ) : ℚ) := by
        exact_mod_cast h
      push_cast at h2
      linarith
  have hpar : (((1000 * c / t : ℕ) : ℤ) % 2 = 0) ↔ (1000 * c / t) % 2 = 0 := by
    omega
  rw [hx]
  unfold roundHalfEven pyRoundTenths
  dsimp only
  rw [hfloor, hfrac]
  rcases Nat.lt_trichotomy (2 * (1000 * c % t)) t with h | h | h
  · rw [if_pos h, if_pos (hlt.mpr h)]
  · have hnlt : ¬ 2 * (1000 * c % t) < t := by omega
    have hngt : ¬ t < 2 * (1000 * c % t) := by omega
    have hq1 : ¬ ((1000 * c % t : ℕ) : ℚ) / (t : ℚ) < 1 / 2 :=
      fun hc => hnlt (hlt.mp hc)
    have hq2 : ¬ 1 / 2 < ((1000 * c % t : ℕ) : ℚ) / (t : ℚ) :=
      fun hc => hngt (hgt.mp hc)
    rw [if_neg hnlt, if_neg hngt, if_neg hq1, if_neg hq2]
    by_cases hev : (1000 * c / t) % 2 = 0
    · rw [if_pos hev, if_pos (hpar.mpr hev)]
    · rw [if_neg hev, if_neg (fun hc => hev (hpar.mp hc))]
      push_cast
      ring
  · have hnlt : ¬ 2 * (1000 * c % t) < t := by omega
    have hq1 : ¬ ((1000 * c % t : ℕ) : ℚ) / (t : ℚ) < 1 / 2 :=
      fun hc => hnlt (hlt.mp hc)
    rw [if_neg hnlt, if_pos h, if_neg hq1, if_pos (hgt.mpr h)]
    push_cast
    ring

/-- Bridge: the integer tenths computation agrees with round-half-away of the
exact rational (correct / total) * 100 * 10. -/
theorem sqliteRoundTenths_eq (c t : Nat) (ht : 0 < t) :
    (sqliteRoundTenths c t : ℤ) =
      roundHalfAway ((c : ℚ) / (t : ℚ) * 100 * 10) := by
  have htQ : (0 : ℚ) < (t : ℚ) := by exact_mod_cast ht
  have hnonneg : (0 : ℚ) ≤ (c : ℚ) / (t : ℚ) * 100 * 10 := by positivity
  have hx : (c : ℚ) / (t : ℚ) * 100 * 10 + 1 / 2 =
      ((2 * (1000 * c) + t : ℕ) : ℚ) / ((2 * t : ℕ) : ℚ) := by
    push_cast
    field_simp
    ring
  unfold roundHalfAway sqliteRoundTenths
  rw [if_pos hnonneg, hx, Rat.floor_natCast_div_natCast]
  exact (Int.ofNat_div _ _).symm

/-! ### Parser fidelity -/

/-- Boundary behavior of the strptime embedding: the year group is exactly
four digits (a three-digit year raises in the program, so it is malformed
here too, while its zero-padded form parses), the day group accepts the
space-padded single-digit form, the month group has no space-padded form,
and year 0 is rejected by the date constructor. -/
theorem parseDate_strptime_boundaries :
    parseDate "999-05-09" = none ∧
    parseDate "0999-05-09" = some ⟨999, 5, 9⟩ ∧
    parseDate "2024-05- 9" = some ⟨2024, 5, 9⟩ ∧
    parseDate "2024- 5-09" = none ∧
    parseDate "0000-01-01" = none := by
  decide

/-! ### Claim theorems -/

/-- Claim C10 (confirmed): for a user id with no row in the users table,
update_streak returns 0 and leaves every field of the store unchanged. -/
theorem missing_user_streak_noop (today : Date) (db : DB) (uid : Nat)
    (h : db.findUser uid = none) :
    update_streak today db uid = Except.ok (db, 0) := by
  unfold update_streak
  rw [h]

theorem missing_user_streak_noop_witness :
    update_streak dToday dbYesterday 12 = Except.ok (dbYesterday, 0) :=
  missing_user_streak_noop dToday dbYesterday 12 (by decide)

/-- Claim C5 (confirmed): get_user_stats is none exactly when the user has
zero answer events; otherwise it reports the ledger-derived total and correct
counts with correct ≤ total, a strictly positive total (so the division is
only taken with total > 0), and the percentage equal to
round(correct / total * 100, 1) (in tenths of a percent). -/
theorem aggregate_spec (db : DB) (uid : Nat) :
    (get_user_stats db uid = none ↔ userAnswers db uid = []) ∧
    (∀ s, get_user_stats db uid = some s →
      s.correct ≤ s.total ∧ 0 < s.total ∧
      s.total = (userAnswers db uid).length ∧
      s.correct = ((userAnswers db uid).filter (fun e => e.isCorrect)).length ∧
      s.percentageTenths = pyRoundTenths s.correct s.total) := by
  have hdef : get_user_stats db uid =
      if (userAnswers db uid).length > 0 then
        some ⟨(userAnswers db uid).length,
              ((userAnswers db uid).filter (fun e => e.isCorrect)).length,
              pyRoundTenths
                ((userAnswers db uid).filter (fun e => e.isCorrect)).length
                (userAnswers db uid).length⟩
      else none := rfl
  by_cases h : (userAnswers db uid).length > 0
  · rw [hdef, if_pos h]
    refine ⟨⟨fun hsome => (Option.some_ne_none _ hsome).elim, fun hnil => ?_⟩,
            fun s hs => ?_⟩
    · rw [hnil] at h; simp at h
    · cases hs
      exact ⟨List.length_filter_le _ _, h, rfl, rfl, rfl⟩
  · rw [hdef, if_neg h]
    have hnil : userAnswers db uid = [] :=
      List.length_eq_zero.mp (Nat.eq_zero_of_not_pos h)
    exact ⟨⟨fun _ => hnil, fun _ => rfl⟩, fun s hs => by cases hs⟩

theorem aggregate_spec_witness :
    (2 : Nat) ≤ 3 ∧ (0 : Nat) < 3 ∧
    (3 : Nat) = (userAnswers dbThree 7).length ∧
    (2 : Nat) = ((userAnswers dbThree 7).filter (fun e => e.isCorrect)).length ∧
    (667 : Nat) = pyRoundTenths 2 3 :=
  (aggregate_spec dbThree 7).2 ⟨3, 2, 667⟩ (by decide)

/-- Claim C1 (corrected): update_streak follows the spec's transition table
for a stored date that is NULL, empty or well-formed — first-ever practice
gives 1, same-day practice keeps the streak (minimum 1), yesterday's practice
increments it, any other parsed date resets it to 1 — and afterwards
bestStreak becomes max(bestStreak, newStreak) and lastPracticeDate becomes
today.  However, a malformed stored date does NOT reset the streak as the
claim states: strptime raises and the update fails, leaving the row
unchanged. -/
theorem streak_transition_spec (today : Date) (db : DB) (uid : Nat)
    (row : UserRow) (hrow : db.findUser uid = some row) :
    (parseStoredDate row.lastPracticeDate = Except.error () →
        update_streak today db uid = Except.error ()) ∧
    (∀ lastDate, parseStoredDate row.lastPracticeDate = Except.ok lastDate →
        update_streak today db uid =
          Except.ok (db.setUser uid
            { row with
              currentStreak := newStreakOf today lastDate row.currentStreak,
              bestStreak := max row.bestStreak
                (newStreakOf today lastDate row.currentStreak),
              lastPracticeDate := some (formatDate today) },
            newStreakOf today lastDate row.currentStreak)) ∧
    newStreakOf today none row.currentStreak = 1 ∧
    newStreakOf today (some today) row.currentStreak = max row.currentStreak 1 ∧
    (Date.pred today ≠ today →
        newStreakOf today (some (Date.pred today)) row.currentStreak =
          row.currentStreak + 1) ∧
    (∀ ld, ld ≠ today → ld ≠ Date.pred today →
        newStreakOf today (some ld) row.currentStreak = 1) := by
  refine ⟨?_, ?_, rfl, ?_, ?_, ?_⟩
  · intro herr
    unfold update_streak
    rw [hrow]
    dsimp only
    rw [herr]
  · intro lastDate hok
    unfold update_streak
    rw [hrow]
    dsimp only
    rw [hok]
  · show (if today = today then _ else _) = _
    rw [if_pos rfl]
    cases row.currentStreak <;> simp
  · intro hne
    show (if Date.pred today = today then _ else _) = _
    rw [if_neg hne, if_pos rfl]
    cases row.currentStreak <;> simp
  · intro ld h1 h2
    show (if ld = today then _ else _) = _
    rw [if_neg h1, if_neg h2]

theorem streak_transition_spec_witness :
    update_streak dToday dbYesterday 7 = Except.ok (dbYesterdayUpdated, 5) := by
  have h := (streak_transition_spec dToday dbYesterday 7 rowYesterday
      (by decide)).2.1 (some ⟨2024, 5, 9⟩) (by decide)
  rw [h]
  decide

/-- Counterexample for claim C1: a user whose stored last_practice_date is
the malformed string "not-a-date".  The claim predicts a streak reset to 1;
the code raises ValueError out of strptime instead, so update_streak errors
and no reset happens. -/
theorem streak_malformed_date_raises :
    dbMalformed.findUser 9 = some rowMalformed ∧
    rowMalformed.lastPracticeDate = some "not-a-date" ∧
    parseDate "not-a-date" = none ∧
    update_streak dToday dbMalformed 9 = Except.error () := by
  decide

/-! Helper lemmas about the question store. -/

lemma map_some_ne_ok_none (r : Except Unit ServedQuestion) :
    r.map some ≠ Except.ok (none : Option ServedQuestion) := by
  cases r <;> simp [Except.map]

lemma choice_mem (l : List Question) (pick : Nat) (h : l ≠ []) :
    choice l pick h ∈ l :=
  List.get_mem l _ _

lemma renderQuestion_ok {q : Question} {lang : Lang} {sq : ServedQuestion}
    (h : renderQuestion q lang = Except.ok sq) :
    q.id = some sq.id ∧ q.topic = some sq.topic ∧
    sq.text = (q.qtext lang).getD (q.question_en.getD "") ∧
    sq.explanation = (q.etext lang).getD (q.explanation_en.getD "") := by
  unfold renderQuestion at h
  cases hid : q.id with
  | none => rw [hid] at h; cases htp : q.topic <;> rw [htp] at h <;> simp at h
  | some i =>
    rw [hid] at h
    cases htp : q.topic with
    | none => rw [htp] at h; simp at h
    | some tp =>
      rw [htp] at h
      cases h
      exact ⟨rfl, rfl, rfl, rfl⟩

/-- Claim C6 (confirmed): with a topic filter, get_question only ever serves
questions of the requested topic; it serves none exactly when no loaded
question of the subject matches the filter; and with a non-empty question
set and no filter it never serves none. -/
theorem topic_filter_spec (data : SubjectData) (lang : Lang) (t : String)
    (pick : Nat) (ht : t ≠ "") :
    (∀ sq, get_question (some data) lang (some t) pick = Except.ok (some sq) →
        sq.topic = t) ∧
    (get_question (some data) lang (some t) pick = Except.ok none ↔
        data.questions.filter (fun q => q.topic == some t) = []) ∧
    (∀ pk, data.questions ≠ [] →
        get_question (some data) lang none pk ≠ Except.ok none) := by
  have noneCase : ∀ pk, data.questions ≠ [] →
      get_question (some data) lang none pk ≠ Except.ok none := by
    intro pk hne
    unfold get_question
    dsimp only
    rw [dif_neg hne]
    exact map_some_ne_ok_none _
  refine ⟨?_, ?_, noneCase⟩ <;> unfold get_question <;> dsimp only
  · by_cases h0 : data.questions = []
    · rw [dif_pos h0]
      intro sq hsq
      simp at hsq
    · rw [dif_neg h0, if_pos ht]
      by_cases h1 : data.questions.filter (fun q => q.topic == some t) = []
      · rw [dif_pos h1]
        intro sq hsq
        simp at hsq
      · rw [dif_neg h1]
        intro sq hsq
        cases hr : renderQuestion
            (choice (data.questions.filter (fun q => q.topic == some t)) pick h1)
            lang with
        | error e => rw [hr] at hsq; simp [Except.map] at hsq
        | ok v =>
          rw [hr] at hsq
          simp [Except.map] at hsq
          subst hsq
          have hmem := choice_mem
            (data.questions.filter (fun q => q.topic == some t)) pick h1
          have hfil := (List.mem_filter.mp hmem).2
          have htopic := eq_of_beq hfil
          have hr2 := (renderQuestion_ok hr).2.1
          rw [hr2] at htopic
          exact Option.some_injective _ htopic
  · by_cases h0 : data.questions = []
    · rw [dif_pos h0]
      constructor
      · intro _; rw [h0]; rfl
      · intro _; rfl
    · rw [dif_neg h0, if_pos ht]
      by_cases h1 : data.questions.filter (fun q => q.topic == some t) = []
      · rw [dif_pos h1]
        exact iff_of_true rfl h1
      · rw [dif_neg h1]
        exact iff_of_false (map_some_ne_ok_none _) h1

theorem topic_filter_spec_witness :
    (⟨2, "geometry", "what is two plus two", fullOptions, "A",
      "because"⟩ : ServedQuestion).topic = "geometry" :=
  (topic_filter_spec twoTopicData Lang.en "geometry" 0 (by decide)).1
    ⟨2, "geometry", "what is two plus two", fullOptions, "A", "because"⟩
    (by decide)

/-- Claim C7 (confirmed): for a question carrying an id and a topic,
rendering succeeds whatever the per-language text fields hold (missing text
never fails it), and when the requested language's question or explanation
text is absent the served payload carries the English variant. -/
theorem render_fallback_spec (q : Question) (lang : Lang) (i : Nat)
    (tp : String) (hid : q.id = some i) (htp : q.topic = some tp) :
    renderQuestion q lang =
      Except.ok ⟨i, tp, (q.qtext lang).getD (q.question_en.getD ""),
        q.options.getD [], q.correct.getD "A",
        (q.etext lang).getD (q.explanation_en.getD "")⟩ ∧
    (∀ sq eT, renderQuestion q lang = Except.ok sq → q.qtext lang = none →
        q.question_en = some eT → sq.text = eT) ∧
    (∀ sq eT, renderQuestion q lang = Except.ok sq → q.etext lang = none →
        q.explanation_en = some eT → sq.explanation = eT) := by
  have h1 : renderQuestion q lang =
      Except.ok ⟨i, tp, (q.qtext lang).getD (q.question_en.getD ""),
        q.options.getD [], q.correct.getD "A",
        (q.etext lang).getD (q.explanation_en.getD "")⟩ := by
    unfold renderQuestion
    rw [hid, htp]
  refine ⟨h1, ?_, ?_⟩
  · intro sq eT hsq hnone hen
    rw [h1] at hsq
    cases hsq
    simp [hnone, hen]
  · intro sq eT hsq hnone hen
    rw [h1] at hsq
    cases hsq
    simp [hnone, hen]

theorem render_fallback_spec_witness :
    (⟨1, "algebra", "what is two plus two", fullOptions, "A",
      "ru expl"⟩ : ServedQuestion).text = "what is two plus two" :=
  (render_fallback_spec qMissingRu Lang.ru 1 "algebra" (by decide)
      (by decide)).2.1
    ⟨1, "algebra", "what is two plus two", fullOptions, "A", "ru expl"⟩
    "what is two plus two" (by decide) (by decide) (by decide)

/-! Helper lemmas about the leaderboard ordering. -/

lemma mem_insertRow {a r : LBRow} {l : List LBRow} :
    a ∈ insertRow r l ↔ a = r ∨ a ∈ l := by
  induction l with
  | nil => simp [insertRow]
  | cons x xs ih =>
    unfold insertRow
    by_cases h : lbBefore r x
    · rw [if_pos h]
      simp [List.mem_cons]
    · rw [if_neg h]
      simp [List.mem_cons, ih]
      tauto

lemma length_insertRow (r : LBRow) (l : List LBRow) :
    (insertRow r l).length = l.length + 1 := by
  induction l with
  | nil => rfl
  | cons x xs ih =>
    unfold insertRow
    by_cases h : lbBefore r x
    · rw [if_pos h]; rfl
    · rw [if_neg h]
      simp [ih]

lemma mem_foldl_insertRow :
    ∀ (l acc : List LBRow) (a : LBRow),
      a ∈ l.foldl (fun acc r => insertRow r acc) acc ↔ a ∈ l ∨ a ∈ acc := by
  intro l
  induction l with
  | nil => simp
  | cons x xs ih =>
    intro acc a
    rw [List.foldl_cons, ih, mem_insertRow]
    simp [List.mem_cons]
    tauto

lemma length_foldl_insertRow :
    ∀ (l acc : List LBRow),
      (l.foldl (fun acc r => insertRow r acc) acc).length =
        l.length + acc.length := by
  intro l
  induction l with
  | nil => simp
  | cons x xs ih =>
    intro acc
    rw [List.foldl_cons, ih, length_insertRow]
    simp
    omega

lemma mem_rankedRows {db : DB} {a : LBRow} :
    a ∈ rankedRows db ↔ a ∈ eligibleRows db := by
  unfold rankedRows
  rw [mem_foldl_insertRow]
  simp

lemma length_rankedRows (db : DB) :
    (rankedRows db).length = (eligibleRows db).length := by
  unfold rankedRows
  rw [length_foldl_insertRow]
  simp

lemma eligible_has_answers {db : DB} {r : LBRow} (h : r ∈ eligibleRows db) :
    userAnswers db r.telegramId ≠ [] := by
  obtain ⟨p, _, hfp⟩ := List.mem_filterMap.mp h
  dsimp only at hfp
  by_cases hlen : (userAnswers db p.1).length > 0
  · rw [if_pos hlen] at hfp
    cases hfp
    exact fun hnil => by rw [hnil] at hlen; simp at hlen
  · rw [if_neg hlen] at hfp
    cases hfp

lemma exists_eligible_row {db : DB} {uid : Nat} {row : UserRow}
    (hmem : (uid, row) ∈ db.users) (hans : userAnswers db uid ≠ []) :
    ∃ r ∈ eligibleRows db, r.telegramId = uid := by
  have hlen : (userAnswers db uid).length > 0 := List.length_pos.mpr hans
  refine ⟨⟨uid, row.firstName,
    ((userAnswers db uid).filter (fun e => e.isCorrect)).length,
    (userAnswers db uid).length,
    sqliteRoundTenths ((userAnswers db uid).filter (fun e => e.isCorrect)).length
      (userAnswers db uid).length,
    row.currentStreak⟩, ?_, rfl⟩
  refine List.mem_filterMap.mpr ⟨(uid, row), hmem, ?_⟩
  dsimp only
  rw [if_pos hlen]

/-- Claim C8 (confirmed): a user with zero answer events never appears among
the ranked leaderboard rows (hence in no top-n slice) and get_user_rank
returns none for them. -/
theorem zero_events_excluded (db : DB) (uid : Nat)
    (h : userAnswers db uid = []) :
    get_user_rank db uid = none ∧
    ∀ n r, r ∈ (rankedRows db).take n → r.telegramId ≠ uid := by
  have key : ∀ r, r ∈ rankedRows db → r.telegramId ≠ uid := by
    intro r hr heq
    have hne := eligible_has_answers (mem_rankedRows.mp hr)
    rw [heq] at hne
    exact hne h
  constructor
  · unfold get_user_rank
    rw [List.findIdx?_eq_none_iff.mpr
      (fun r hr => beq_eq_false_iff_ne.mpr (key r hr))]
    rfl
  · intro n r hr
    exact key r (List.mem_of_mem_take hr)

theorem zero_events_excluded_witness :
    get_user_rank dbRank 3 = none :=
  (zero_events_excluded dbRank 3 (by decide)).1

/-- Claim C3 (confirmed): for a registered user with at least one answer
event and any n at least the eligible population size, the rank reported by
get_user_rank is exactly the 1-based position of the user's row inside the
first n ordered rows — get_leaderboard and get_user_rank are two views of the
one shared ordering (accuracy descending, then correct-count descending). -/
theorem rank_consistent_with_top (db : DB) (uid : Nat) (row : UserRow)
    (n : Nat) (hmem : (uid, row) ∈ db.users) (hans : userAnswers db uid ≠ [])
    (hn : (eligibleRows db).length ≤ n) :
    (get_user_rank db uid).isSome ∧
    get_user_rank db uid =
      (((rankedRows db).take n).findIdx?
        (fun r => r.telegramId == uid)).map (· + 1) ∧
    get_leaderboard db n = ((rankedRows db).take n).map displayRow := by
  have htake : (rankedRows db).take n = rankedRows db :=
    List.take_of_length_le (by rw [length_rankedRows]; exact hn)
  refine ⟨?_, by rw [htake]; rfl, rfl⟩
  obtain ⟨r, hr, hrid⟩ := exists_eligible_row hmem hans
  have hr2 : r ∈ rankedRows db := mem_rankedRows.mpr hr
  unfold get_user_rank
  cases hidx : (rankedRows db).findIdx? (fun r => r.telegramId == uid) with
  | none =>
    have hfalse := List.findIdx?_eq_none_iff.mp hidx r hr2
    rw [hrid] at hfalse
    simp at hfalse
  | some k => simp

theorem rank_consistent_with_top_witness :
    get_user_rank dbRank 2 =
      (((rankedRows dbRank).take 5).findIdx?
        (fun r => r.telegramId == 2)).map (· + 1) :=
  (rank_consistent_with_top dbRank 2 ⟨"Bek", 0, 0, none⟩ 5 (by decide)
    (by decide) (by decide)).2.1

/-- Claim C2 (corrected): in the check_answer flow the streak update is
applied exactly once, first; every append happens on top of the once-updated
store; when the flow completes with an answered outcome, the aggregates and
streak info it presents are read from the post-update, post-append store; and
the no-record paths leave the store exactly as the streak update left it.
The claim's "streak update iff append" direction fails — see the
counterexample theorem. -/
theorem record_flow_spec (today : Date) (db : DB) (uid : Nat) (sess : Session)
    (text : String) (db1 : DB) (n : Nat)
    (hup : update_streak today db uid = Except.ok (db1, n)) :
    (check_answer today db uid sess text).1.users = db1.users ∧
    ((check_answer today db uid sess text).1.answers = db1.answers ∨
      ∃ e, (check_answer today db uid sess text).1.answers =
        db1.answers ++ [e]) ∧
    (((check_answer today db uid sess text).2 = Except.ok Outcome.freeText ∨
      (check_answer today db uid sess text).2 = Except.ok Outcome.noQuestion) →
      (check_answer today db uid sess text).1 = db1) ∧
    (∀ stats si m,
      (check_answer today db uid sess text).2 =
        Except.ok (Outcome.answered stats si m) →
      m = n ∧
      (∃ e, e.telegramId = uid ∧
        (check_answer today db uid sess text).1 = save_answer db1 e) ∧
      stats = get_user_stats (check_answer today db uid sess text).1 uid ∧
      si = (if n > 1 then
              some (get_user_streak (check_answer today db uid sess text).1 uid)
            else none)) := by
  unfold check_answer
  rw [hup]
  dsimp only
  by_cases hmem : upperStrip text ∈ (["A", "B", "C", "D", "E"] : List String)
  · rw [if_pos hmem]
    cases hq : sess.currentQuestion with
    | none =>
      exact ⟨rfl, Or.inl rfl, fun _ => rfl, fun stats si m h => by simp at h⟩
    | some q =>
      dsimp only
      cases hfind : q.options.find? (fun p => p.1 == q.correct) with
      | none =>
        refine ⟨rfl, Or.inr ⟨_, rfl⟩, ?_, ?_⟩
        · intro hcontr
          rcases hcontr with h | h <;> simp at h
        · intro stats si m h
          simp at h
      | some popt =>
        refine ⟨rfl, Or.inr ⟨_, rfl⟩, ?_, ?_⟩
        · intro hcontr
          rcases hcontr with h | h <;> simp at h
        · intro stats si m h
          obtain ⟨hstats, hsi, hm⟩ := Outcome.answered.inj (Except.ok.inj h)
          exact ⟨hm.symm, ⟨_, rfl, rfl⟩, hstats.symm, hsi.symm⟩
  · rw [if_neg hmem]
    exact ⟨rfl, Or.inl rfl, fun _ => rfl, fun stats si m h => by simp at h⟩

theorem record_flow_spec_witness :
    (check_answer dToday dbYesterday 7 sessQ "b ").1.users =
      dbYesterdayUpdated.users ∧
    (some ⟨1, 1, 1000⟩ : Option Stats) =
      get_user_stats (check_answer dToday dbYesterday 7 sessQ "b ").1 7 := by
  have h := record_flow_spec dToday dbYesterday 7 sessQ "b "
    dbYesterdayUpdated 5 (by decide)
  refine ⟨h.1, ?_⟩
  exact (h.2.2.2 (some ⟨1, 1, 1000⟩) (some (5, 5)) 5 (by decide)).2.2.1

/-- Counterexample for claim C2: text that is not an answer label still
updates the streak while appending nothing — the streak update is not "if and
only if an AnswerEvent is appended".  Here a user whose last practice was
yesterday sends "hello": the users table changes (streak 4 becomes 5) but the
answers ledger does not. -/
theorem streak_update_without_append :
    (check_answer dToday dbYesterday 7 sessQ "hello").2 =
      Except.ok Outcome.freeText ∧
    (check_answer dToday dbYesterday 7 sessQ "hello").1.answers =
      dbYesterday.answers ∧
    (check_answer dToday dbYesterday 7 sessQ "hello").1.users ≠
      dbYesterday.users := by
  decide

/-- Claim C4 (corrected): the record operation itself (save_answer) always
succeeds and appends exactly one event whatever the submitted label, and
within the flow every label in A..E with an active question is recorded with
correctness (submitted == correct); but a submitted label outside A..E never
reaches save_answer — the flow diverts it to the free-text handler and
appends nothing, instead of recording an incorrect answer. -/
theorem record_label_spec :
    (∀ (db : DB) (e : AnswerEvent),
        (save_answer db e).answers = db.answers ++ [e]) ∧
    (∀ (today : Date) (db : DB) (uid : Nat) (sess : Session) (text : String)
        (db1 : DB) (n : Nat) (q : ServedQuestion),
        update_streak today db uid = Except.ok (db1, n) →
        sess.currentQuestion = some q →
        upperStrip text ∈ (["A", "B", "C", "D", "E"] : List String) →
        (check_answer today db uid sess text).1.answers =
          db1.answers ++ [⟨uid, sess.subject.getD "math", q.id,
            upperStrip text, q.correct, upperStrip text == q.correct⟩]) ∧
    (∀ (today : Date) (db : DB) (uid : Nat) (sess : Session) (text : String)
        (db1 : DB) (n : Nat),
        update_streak today db uid = Except.ok (db1, n) →
        upperStrip text ∉ (["A", "B", "C", "D", "E"] : List String) →
        (check_answer today db uid sess text).1.answers = db1.answers) := by
  refine ⟨fun db e => rfl, ?_, ?_⟩
  · intro today db uid sess text db1 n q hup hq hmem
    unfold check_answer
    rw [hup]
    dsimp only
    rw [if_pos hmem, hq]
    dsimp only
    cases hfind : q.options.find? (fun p => p.1 == q.correct) <;> rfl
  · intro today db uid sess text db1 n hup hmem
    unfold check_answer
    rw [hup]
    dsimp only
    rw [if_neg hmem]

theorem record_label_spec_witness :
    (check_answer dToday dbYesterday 7 sessQ "b ").1.answers =
      dbYesterdayUpdated.answers ++ [⟨7, "math", 3, "B", "B", true⟩] :=
  record_label_spec.2.1 dToday dbYesterday 7 sessQ "b " dbYesterdayUpdated 5
    servedQ (by decide) rfl (by decide)

/-- Counterexample for claim C4: the submitted label "F" lies outside A..E.
The claim says it is recorded as an incorrect answer; the flow instead
diverts to the free-text handler and appends no AnswerEvent at all. -/
theorem label_outside_alphabet_skipped :
    upperStrip "F" ∉ (["A", "B", "C", "D", "E"] : List String) ∧
    (check_answer dToday dbYesterday 7 sessQ "F").1.answers =
      dbYesterday.answers ∧
    (check_answer dToday dbYesterday 7 sessQ "F").2 =
      Except.ok Outcome.freeText := by
  decide

/-! Helper lemma: a question passing the validator's field checks has every
required field present. -/

lemma fieldErrors_nil_presence {q : Question} (h : fieldErrors q = []) :
    q.question_en ≠ none ∧ q.question_ru ≠ none ∧ q.question_kk ≠ none ∧
    q.explanation_en ≠ none ∧ q.explanation_ru ≠ none ∧
    q.explanation_kk ≠ none ∧ q.options ≠ none := by
  simp only [fieldErrors, List.append_eq_nil] at h
  obtain ⟨⟨⟨⟨⟨⟨⟨⟨⟨h1, h2⟩, h3⟩, h4⟩, h5⟩, h6⟩, h7⟩, h8⟩, h9⟩, h10⟩ := h
  refine ⟨?_, ?_, ?_, ?_, ?_, ?_, ?_⟩ <;> intro hnone
  · rw [hnone] at h3; exact List.cons_ne_nil _ _ h3
  · rw [hnone] at h4; exact List.cons_ne_nil _ _ h4
  · rw [hnone] at h5; exact List.cons_ne_nil _ _ h5
  · rw [hnone] at h8; exact List.cons_ne_nil _ _ h8
  · rw [hnone] at h9; exact List.cons_ne_nil _ _ h9
  · rw [hnone] at h10; exact List.cons_ne_nil _ _ h10
  · rw [hnone] at h6; exact List.cons_ne_nil _ _ h6

/-- Claim C9 (corrected): loading performs no per-record validation — parsed
data is cached exactly as json.load produced it, so records missing language
variants or option labels reach serve time.  The all-variants / all-options
invariant is enforced only by the offline admin validator, which flags any
record missing one of the three question or explanation variants, the options
field, or one of the five option labels. -/
theorem load_validation_spec :
    (∀ d : SubjectData,
        load_questions_from_file (SourceFile.parsed d) = some d) ∧
    (∀ (q : Question) (tp : String),
        (q.question_en = none ∨ q.question_ru = none ∨ q.question_kk = none ∨
         q.explanation_en = none ∨ q.explanation_ru = none ∨
         q.explanation_kk = none ∨ q.options = none) →
        validate_question q tp ≠ []) ∧
    (∀ (q : Question) (tp : String) (opts : List (String × String))
        (lbl : String),
        q.options = some opts → lbl ∈ requiredOptionLabels →
        opts.find? (fun p => p.1 == lbl) = none →
        validate_question q tp ≠ []) := by
  refine ⟨fun d => rfl, ?_, ?_⟩
  · intro q tp hcase hnil
    have hf : fieldErrors q = [] := by
      simp only [validate_question, List.append_eq_nil] at hnil
      exact hnil.1.1.1.1.1
    have hp := fieldErrors_nil_presence hf
    rcases hcase with h | h | h | h | h | h | h
    · exact hp.1 h
    · exact hp.2.1 h
    · exact hp.2.2.1 h
    · exact hp.2.2.2.1 h
    · exact hp.2.2.2.2.1 h
    · exact hp.2.2.2.2.2.1 h
    · exact hp.2.2.2.2.2.2 h
  · intro q tp opts lbl hopts hlbl hfind hnil
    have hoe : optionErrors q = [] := by
      simp only [validate_question, List.append_eq_nil] at hnil
      exact hnil.1.1.1.2
    have hmem : ("missing option " ++ lbl) ∈ optionErrors q := by
      unfold optionErrors
      rw [hopts]
      refine List.mem_flatMap.mpr ⟨lbl, hlbl, ?_⟩
      rw [hfind]
      simp
    rw [hoe] at hmem
    exact List.not_mem_nil _ hmem

theorem load_validation_spec_witness :
    load_questions_from_file (SourceFile.parsed badSubject) = some badSubject ∧
    validate_question qMissingRu "algebra" ≠ [] :=
  ⟨load_validation_spec.1 badSubject,
   load_validation_spec.2.1 qMissingRu "algebra" (Or.inr (Or.inl rfl))⟩

/-- Counterexample for claim C9: a record missing its Russian question text
is not rejected at load time — the loader returns it untouched — and it is
then served, with the missing variant silently replaced by the English
fallback at serve time. -/
theorem invalid_record_loaded_and_served :
    load_questions_from_file (SourceFile.parsed badSubject) = some badSubject ∧
    qMissingRu ∈ badSubject.questions ∧
    qMissingRu.question_ru = none ∧
    get_question (some badSubject) Lang.ru none 0 =
      Except.ok (some ⟨1, "algebra", "what is two plus two", fullOptions, "A",
        "ru expl"⟩) := by
  decide

end UntBot
